import Mathlib

/-!
Shallow embedding of the obsidian-tasks fork's core (incremental indexer,
query interpreter, ordering engine) and proofs about the specification's
claims.  Machine dates are modelled as day numbers (`Nat`); a possibly
invalid moment is an `Option Nat` (`none` = moment's invalid state); a JS
expression that throws is modelled by an `Option` result (`none` = throw).
-/

namespace ObsidianTasks

/-! ## Task model (Task.ts is not part of the sources; modelled from the spec) -/

/-- Status enumeration, from the spec: status ∈ \x7bTodo, Done, Blocked, InProgress\x7d. -/
inductive Status where
  | Todo
  | Done
  | Blocked
  | InProgress
deriving DecidableEq, Repr

/-- Priority enumeration, from the spec: priority ∈ \x7bNone, Low, Medium, High\x7d. -/
inductive Priority where
  | None
  | Low
  | Medium
  | High
deriving DecidableEq, Repr

/-- Modelled from the spec: the numeric rank of a priority in the ranking order
High > Medium > Low > None (smaller rank = higher-ranked). -/
def Priority.rank : Priority → Nat
  | Priority.High => 0
  | Priority.Medium => 1
  | Priority.Low => 2
  | Priority.None => 3

/-- Modelled from the spec: Task.ts (which defines the Priority enumeration and its
string forms) is not under src/.  Per the spec the enumeration's string forms compare
lexicographically in the ranking order High > Medium > Low > None, so
`a.localeCompare(b)` is negative exactly when `a` is higher-ranked than `b`.  We model
the sign of the JS `localeCompare` result as the difference of the ranks. -/
def Priority.localeCompare (a b : Priority) : Int :=
  (Priority.rank a : Int) - (Priority.rank b : Int)

/-- Modelled from the spec: all four priority enumeration string values are non-empty
strings, hence truthy in JS (`task.priority ? _ : false` always takes the first arm). -/
def Priority.truthy (_ : Priority) : Bool := true

/-- Spec-side notion for the priority claims: `a` outranks `b` when it is
strictly higher-ranked in the order High > Medium > Low > None. -/
def Priority.outranks (a b : Priority) : Bool :=
  decide (Priority.rank a < Priority.rank b)

/-- One checklist line and its computed attributes (spec section 3).  Dates carry no
time of day and are modelled as calendar-day numbers. -/
structure Task where
  path : String
  description : String
  indentation : String
  status : Status
  priority : Priority
  startDate : Option Nat
  scheduledDate : Option Nat
  dueDate : Option Nat
  doneDate : Option Nat
  recurrence : Option String
  urgency : Int
  precedingHeader : Option String
  sectionStart : Nat
  sectionIndex : Nat
  id : Nat
  parent : Int
deriving DecidableEq, Repr

/-- Ordered cluster of one top-level task and its nested children. -/
structure TaskBlock where
  tasks : List Task
deriving DecidableEq, Repr

/-- JS array indexing: `arr[i]` is `undefined` (here `none`) unless `0 ≤ i < length`.
In particular `arr[-1]` is always `undefined` (JS has no negative indexing). -/
def jsIdx (i : Int) (l : List α) : Option α :=
  if h : 0 ≤ i ∧ i.toNat < l.length then some (l.get ⟨i.toNat, h.2⟩) else none

/-! ## Cache: delete and rename handlers (src/unnamed/part_000) -/

/-- The path-comparison filter used by both the vault delete handler (lines 148-158)
and the per-document removal step of `indexFile` (lines 229-235): keep a block iff
`taskblock.tasks.length > 0 ? taskblock.tasks[0].path !== file.path : false`. -/
def removeBlocksOfPath (filePath : String) (taskblocks : List TaskBlock) : List TaskBlock :=
  taskblocks.filter fun taskBlock =>
    match taskBlock.tasks with
    | t :: _ => t.path != filePath
    | [] => false

/-- The vault delete handler: removes every block whose first task's path equals the
deleted file's path, via the shared path-comparison filter. -/
def deleteFile (filePath : String) (taskblocks : List TaskBlock) : List TaskBlock :=
  removeBlocksOfPath filePath taskblocks

/-- The vault rename handler (part_000 lines 163-187): maps over the blocks; for a
block whose first task's path equals `oldPath` it constructs `newTaskBlock` (a block
with every task's path rewritten to the new file's path) — but the map callback then
returns the original `taskBlock` in every branch, so the constructed block is
discarded. -/
def renameFile (newFilePath oldPath : String) (taskblocks : List TaskBlock) : List TaskBlock :=
  taskblocks.map fun taskBlock =>
    match taskBlock.tasks with
    | t :: _ =>
      if t.path = oldPath then
        let _newTaskBlock : TaskBlock :=
          { tasks := taskBlock.tasks.map fun task => { task with path := newFilePath } }
        taskBlock
      else taskBlock
    | [] => taskBlock

/-! ## Ordering engine (src/src/Sort.ts) -/

/-- Stable insertion for the model of JS `Array.prototype.sort` with a total
comparator (used for the inner per-task sorts, whose comparators never throw). -/
def jsInsert (cmp : α → α → Int) (x : α) : List α → List α
  | [] => [x]
  | y :: ys => if cmp x y < 0 then x :: y :: ys else y :: jsInsert cmp x ys

/-- Model of JS `Array.prototype.sort` with a total comparator: a stable sort
consistent with the comparator (ES2019 requires the sort to be stable). -/
def jsSort (cmp : α → α → Int) (l : List α) : List α :=
  l.foldl (fun acc x => jsInsert cmp x acc) []

/-- Stable insertion where a comparator call may throw (`none`). -/
def jsInsertM (cmp : α → α → Option Int) (x : α) : List α → Option (List α)
  | [] => some [x]
  | y :: ys => do
      let r ← cmp x y
      if r < 0 then pure (x :: y :: ys)
      else do
        let rest ← jsInsertM cmp x ys
        pure (y :: rest)

/-- Model of JS `Array.prototype.sort` with a comparator that may throw: the result is
`none` when some comparator call throws, otherwise the stably sorted list.  JS sorts
the receiver in place and returns it, so this value is also the content of the
caller's array after the call. -/
def jsSortM (cmp : α → α → Option Int) (l : List α) : Option (List α) :=
  l.foldlM (fun acc x => jsInsertM cmp x acc) []

/-- Sort.ts `compareByDate` (lines 165-184): a present date sorts before an absent
one; present dates compare by calendar day. -/
def compareByDate : Option Nat → Option Nat → Int
  | some _, none => -1
  | none, some _ => 1
  | some a, some b => if a > b then 1 else if a < b then -1 else 0
  | none, none => 0

/-- Sort.ts `compareByUrgency` (lines 66-84).  An empty block compares `-1` against
anything (the source's length guards); otherwise blocks compare by their highest task
urgency (the task sort puts the highest urgency first).  The source's `console.log`
has no bearing on the returned value. -/
def compareByUrgency (a b : TaskBlock) : Option Int :=
  let compareTask : Task → Task → Int := fun x y => y.urgency - x.urgency
  if a.tasks.length < 1 then some (-1)
  else if b.tasks.length < 1 then some 1
  else do
    let a_sorted := jsSort compareTask a.tasks
    let b_sorted := jsSort compareTask b.tasks
    let x ← jsIdx 0 a_sorted
    let y ← jsIdx 0 b_sorted
    some (compareTask x y)

/-- Sort.ts `compareByStatus` (lines 88-108): a block scores `true` when the count of
Done statuses equals the task count (an empty block therefore scores `true`), and
blocks compare by JS `<` on those booleans (`false < true`). -/
def compareByStatus (a b : TaskBlock) : Option Int :=
  let getScore : List Status → Bool := fun arr => arr.countP (· == Status.Done) == arr.length
  let a_score := getScore (a.tasks.map (·.status))
  let b_score := getScore (b.tasks.map (·.status))
  some (if !a_score && b_score then -1 else if !b_score && a_score then 1 else 0)

/-- Sort.ts `compareByPriority` (lines 110-119): sorts each block's tasks by priority
and compares the first elements.  There is no length guard: for an empty block
`a_sorted[0]` is `undefined` and `at.priority.localeCompare` throws (`none`). -/
def compareByPriority (a b : TaskBlock) : Option Int :=
  let compareTask : Task → Task → Int := fun x y => Priority.localeCompare x.priority y.priority
  let a_sorted := jsSort compareTask a.tasks
  let b_sorted := jsSort compareTask b.tasks
  do
    let x ← jsIdx 0 a_sorted
    let y ← jsIdx 0 b_sorted
    some (compareTask x y)

/-- Sort.ts `compareByStartDate` (lines 121-130); `a_sorted[0]` is `undefined` for an
empty block, so the date access throws (`none`). -/
def compareByStartDate (a b : TaskBlock) : Option Int :=
  let compareTask : Task → Task → Int := fun x y => compareByDate x.startDate y.startDate
  let a_sorted := jsSort compareTask a.tasks
  let b_sorted := jsSort compareTask b.tasks
  do
    let x ← jsIdx 0 a_sorted
    let y ← jsIdx 0 b_sorted
    some (compareByDate x.startDate y.startDate)

/-- Sort.ts `compareByScheduledDate` (lines 132-141). -/
def compareByScheduledDate (a b : TaskBlock) : Option Int :=
  let compareTask : Task → Task → Int := fun x y => compareByDate x.scheduledDate y.scheduledDate
  let a_sorted := jsSort compareTask a.tasks
  let b_sorted := jsSort compareTask b.tasks
  do
    let x ← jsIdx 0 a_sorted
    let y ← jsIdx 0 b_sorted
    some (compareByDate x.scheduledDate y.scheduledDate)

/-- Sort.ts `compareByDueDate` (lines 143-152). -/
def compareByDueDate (a b : TaskBlock) : Option Int :=
  let compareTask : Task → Task → Int := fun x y => compareByDate x.dueDate y.dueDate
  let a_sorted := jsSort compareTask a.tasks
  let b_sorted := jsSort compareTask b.tasks
  do
    let x ← jsIdx 0 a_sorted
    let y ← jsIdx 0 b_sorted
    some (compareByDate x.dueDate y.dueDate)

/-- Sort.ts `compareByDoneDate` (lines 154-163): the source reads `a_sorted[-1]` and
`b_sorted[-1]`.  JS arrays have no negative indexing, so `a_sorted[-1]` is `undefined`
and the `.doneDate` access throws (`none`). -/
def compareByDoneDate (a b : TaskBlock) : Option Int :=
  let compareTask : Task → Task → Int := fun x y => compareByDate x.doneDate y.doneDate
  let a_sorted := jsSort compareTask a.tasks
  let b_sorted := jsSort compareTask b.tasks
  do
    let x ← jsIdx (-1) a_sorted
    let y ← jsIdx (-1) b_sorted
    some (compareByDate x.doneDate y.doneDate)

/-- Sort.ts `compareByPath` (lines 186-196): lexicographic comparison of the first
tasks' paths, `0` when either block is empty (this one is length-guarded). -/
def compareByPath (a b : TaskBlock) : Option Int :=
  match a.tasks, b.tasks with
  | x :: _, y :: _ =>
      if x.path < y.path then some (-1)
      else if y.path < x.path then some 1
      else some 0
  | _, _ => some 0

/-- Modelled from the spec: Settings.ts is not under src/.  The settings' global
filter token (used to mark managed tasks) is modelled as unconfigured, the empty
string; JS `s.replace('', '')` returns `s` unchanged. -/
def globalFilter : String := ""

/-- JS `String.prototype.replace(pat, '')` with a string pattern removes the first
occurrence of `pat` (only the first). -/
def removeFirstOccur (pat : List Char) : List Char → List Char
  | [] => []
  | c :: cs => if pat.isPrefixOf (c :: cs) then (c :: cs).drop pat.length
               else c :: removeFirstOccur pat cs

/-- JS `haystack.replace(pat, '')` for our purposes (first occurrence removed; the
empty pattern matches at offset 0 and removes nothing). -/
def jsReplaceFirst (s pat : String) : String :=
  String.mk (removeFirstOccur pat.data s.data)

/-- JS `String.prototype.split(sep)` for a one-character separator, on character
lists (structurally recursive so that proofs can evaluate it). -/
def splitOnChar (sep : Char) : List Char → List (List Char)
  | [] => [[]]
  | c :: cs =>
    if c == sep then [] :: splitOnChar sep cs
    else
      match splitOnChar sep cs with
      | seg :: rest => (c :: seg) :: rest
      | [] => [[c]]

/-- JS `String.prototype.trim` on character lists: strip whitespace from both
ends. -/
def trimChars (cs : List Char) : List Char :=
  ((cs.dropWhile Char.isWhitespace).reverse.dropWhile Char.isWhitespace).reverse

/-- JS `String.prototype.trim`. -/
def jsTrim (s : String) : String :=
  String.mk (trimChars s.data)

/-- Matcher for Sort.ts `startsWithLinkRegex` (an opening `[`, an optional second
`[`, a capture of non-`]` characters, a closing `]`): returns the capture and the
rest after the match.  The optional bracket is tried greedily first, then without,
as a backtracking regex engine would. -/
def matchLinkStart (s : List Char) : Option (List Char × List Char) :=
  match s with
  | '[' :: t =>
    let tryFrom : List Char → Option (List Char × List Char) := fun u =>
      let inner := u.takeWhile (· != ']')
      match u.drop inner.length with
      | ']' :: rest => some (inner, rest)
      | _ => none
    (match t with
     | '[' :: u => (tryFrom u).orElse fun _ => tryFrom t
     | _ => tryFrom t)
  | _ => none

/-- Matcher for Sort.ts `startsWithItalicOrBoldRegex` (`*`, optional `*`, capture of
non-`*` characters, closing `*`). -/
def matchBoldStart (s : List Char) : Option (List Char × List Char) :=
  match s with
  | '*' :: t =>
    let tryFrom : List Char → Option (List Char × List Char) := fun u =>
      let inner := u.takeWhile (· != '*')
      match u.drop inner.length with
      | '*' :: rest => some (inner, rest)
      | _ => none
    (match t with
     | '*' :: u => (tryFrom u).orElse fun _ => tryFrom t
     | _ => tryFrom t)
  | _ => none

/-- Matcher for Sort.ts `startsWithHighlightRegex` (`=`, optional `=`, capture of
non-`=` characters, closing `==`). -/
def matchHighlightStart (s : List Char) : Option (List Char × List Char) :=
  match s with
  | '=' :: t =>
    let tryFrom : List Char → Option (List Char × List Char) := fun u =>
      let inner := u.takeWhile (· != '=')
      match u.drop inner.length with
      | '=' :: '=' :: rest => some (inner, rest)
      | _ => none
    (match t with
     | '=' :: u => (tryFrom u).orElse fun _ => tryFrom t
     | _ => tryFrom t)
  | _ => none

/-- The part of `innerLinkText` after the first `|`, or all of it when there is no
pipe (JS `inner.substring(inner.indexOf('|') + 1)`). -/
def afterPipe (inner : List Char) : List Char :=
  if inner.contains '|' then inner.drop (inner.indexOf '|' + 1) else inner

/-- Sort.ts `cleanDescription` (lines 219-255).  Note the source's second step
replaces with `startsWithLinkRegex` (not the bold regex), which at that point never
matches, so the matched bold prefix is kept: the inner text is prepended to the whole
remaining description.  We reproduce that verbatim. -/
def cleanDescription (description : String) : String :=
  let d0 := jsTrim (jsReplaceFirst description globalFilter)
  let d1 :=
    match matchLinkStart d0.data with
    | some (inner, rest) => String.mk (afterPipe inner ++ rest)
    | none => d0
  let d2 :=
    match matchBoldStart d1.data with
    | some (inner, _) =>
        let afterLinkRemoval :=
          match matchLinkStart d1.data with
          | some (_, rest) => String.mk rest
          | none => d1
        String.mk inner ++ afterLinkRemoval
    | none => d1
  let d3 :=
    match matchHighlightStart d2.data with
    | some (inner, rest) => String.mk inner ++ String.mk rest
    | none => d2
  d3

/-- Sign of a lexicographic string comparison, modelling JS `localeCompare`. -/
def stringCompareInt (a b : String) : Int :=
  if a < b then -1 else if b < a then 1 else 0

/-- Sort.ts `compareByDescription` (lines 204-211): compares only the top-level
tasks' cleaned descriptions; `a.tasks[0]` is `undefined` for an empty block, so the
`.description` access throws (`none`). -/
def compareByDescription (a b : TaskBlock) : Option Int := do
  let x ← jsIdx 0 a.tasks
  let y ← jsIdx 0 b.tasks
  some (stringCompareInt (cleanDescription x.description) (cleanDescription y.description))

/-- The nine sortable properties (Query.ts `SortingProperty`). -/
inductive SortingProperty where
  | urgency
  | status
  | priority
  | start
  | scheduled
  | due
  | done
  | path
  | description
deriving DecidableEq, Repr

/-- A user sort criterion (Query.ts `Sorting`). -/
structure Sorting where
  property : SortingProperty
  reverse : Bool
deriving DecidableEq, Repr

/-- Sort.ts `comparators` record (lines 36-46). -/
def comparators : SortingProperty → (TaskBlock → TaskBlock → Option Int)
  | SortingProperty.urgency => compareByUrgency
  | SortingProperty.description => compareByDescription
  | SortingProperty.priority => compareByPriority
  | SortingProperty.start => compareByStartDate
  | SortingProperty.scheduled => compareByScheduledDate
  | SortingProperty.due => compareByDueDate
  | SortingProperty.done => compareByDoneDate
  | SortingProperty.path => compareByPath
  | SortingProperty.status => compareByStatus

/-- Sort.ts `makeReversedComparator` (lines 48-50). -/
def makeReversedComparator (c : TaskBlock → TaskBlock → Option Int) :
    TaskBlock → TaskBlock → Option Int :=
  fun a b => (c a b).map (· * (-1))

/-- The chain walk of Sort.ts `makeCompositeComparator` (lines 52-64): first nonzero
result wins; a throw anywhere propagates. -/
def compositeGo (a b : TaskBlock) : List (TaskBlock → TaskBlock → Option Int) → Option Int
  | [] => some 0
  | c :: rest => do
      let r ← c a b
      if r != 0 then pure r else compositeGo a b rest

/-- Sort.ts `makeCompositeComparator`. -/
def makeCompositeComparator (cs : List (TaskBlock → TaskBlock → Option Int)) :
    TaskBlock → TaskBlock → Option Int :=
  fun a b => compositeGo a b cs

/-- Sort.ts `Sort.by` (lines 10-34): user criteria first (each optionally reversed),
then the fixed default chain, fed to `taskBlocks.sort`.  `Array.prototype.sort` sorts
the caller's array in place and returns that same array, so the value below is also
the content of the caller's array after the call; `none` models a comparator throw
escaping the sort. -/
def sortBy (sorting : List Sorting) (taskBlocks : List TaskBlock) : Option (List TaskBlock) :=
  let defaultComparators := [compareByUrgency, compareByStatus, compareByDueDate,
    compareByPriority, compareByPath]
  let userComparators := sorting.map fun s =>
    if s.reverse then makeReversedComparator (comparators s.property)
    else comparators s.property
  jsSortM (makeCompositeComparator (userComparators ++ defaultComparators)) taskBlocks

/-- The caller's array content after `Sort.by` returns: JS `Array.prototype.sort`
mutated the receiver in place, so it equals the returned array. -/
def callerArrayAfterSortBy (sorting : List Sorting) (taskBlocks : List TaskBlock) :
    Option (List TaskBlock) :=
  sortBy sorting taskBlocks

/-! ## Query interpreter (src/unnamed/part_001) -/

/-- A compiled predicate over a TaskBlock; `none` models a JS throw while
evaluating the predicate. -/
def Filter := TaskBlock → Option Bool

/-- Query.ts layout/display toggles (LayoutOptions.ts is external; the spec lists
exactly these flags). -/
structure LayoutOptions where
  shortMode : Bool := false
  hideTaskCount : Bool := false
  hideBacklinks : Bool := false
  hidePriority : Bool := false
  hideStartDate : Bool := false
  hideScheduledDate : Bool := false
  hideDueDate : Bool := false
  hideDoneDate : Bool := false
  hideRecurrenceRule : Bool := false
  hideEditButton : Bool := false
deriving Repr, DecidableEq

/-- The compiled state of a Query: predicates, sort criteria, limit, layout options
and the terminal parse error. -/
structure QueryState where
  limit : Option Nat := none
  layoutOptions : LayoutOptions := {}
  filters : List Filter := []
  error : Option String := none
  sorting : List Sorting := []

/-- Moment comparison `d.isBefore(f)` where `d` is a valid task date and `f` a
possibly invalid filter moment: any comparison against an invalid moment is false. -/
def momentIsBefore (d : Nat) (f : Option Nat) : Bool :=
  match f with
  | some n => decide (d < n)
  | none => false

/-- Moment comparison `d.isAfter(f)`. -/
def momentIsAfter (d : Nat) (f : Option Nat) : Bool :=
  match f with
  | some n => decide (n < d)
  | none => false

/-- Moment comparison `d.isSame(f)` (calendar-day equality, both started-of-day). -/
def momentIsSame (d : Nat) (f : Option Nat) : Bool :=
  match f with
  | some n => d == n
  | none => false

/-- Strips the literal `pre` from the front of `s`, failing when it is not a
prefix (helper for the hand-rolled regex matchers below). -/
def stripLit (pre s : String) : Option String :=
  if pre.data.isPrefixOf s.data then some (String.mk (s.data.drop pre.data.length)) else none

/-- The first alternative of an alternation that matches as a prefix of `s`, in the
order the source regex lists them. -/
def firstAlt (alts : List String) (s : String) : Option String :=
  alts.find? fun a => a.data.isPrefixOf s.data

/-- Digits-to-number fold for the limit matcher. -/
def digitsToNat (ds : List Char) : Nat :=
  ds.foldl (fun n c => 10 * n + (c.toNat - '0'.toNat)) 0


/-- Matcher for `priorityRegexp` (`^priority (is )?(above|below)? ?(low|none|medium|high)`):
returns the optional qualifier (group 2) and priority word (group 3).  Greedy
matching of the optional pieces coincides with the regex here because no later
alternative begins with a consumed prefix. -/
def priorityMatch (line : String) : Option (Option String × String) := do
  let r1 ← stripLit "priority " line
  let r2 := match stripLit "is " r1 with
    | some r => r
    | none => r1
  let (qual, r3) := match firstAlt ["above", "below"] r2 with
    | some q => (some q, String.mk (r2.data.drop q.data.length))
    | none => ((none : Option String), r2)
  let r4 := match stripLit " " r3 with
    | some r => r
    | none => r3
  let w ← firstAlt ["low", "none", "medium", "high"] r4
  pure (qual, w)

/-- Matcher for the four date-filter regexes `^<kw> (before|after|on)? ?(.*)`:
returns the optional qualifier and the date text (the rest of the line). -/
def dateMatch (kw : String) (line : String) : Option (Option String × String) := do
  let r1 ← stripLit (kw ++ " ") line
  let (qual, r2) := match firstAlt ["before", "after", "on"] r1 with
    | some q => (some q, String.mk (r1.data.drop q.data.length))
    | none => ((none : Option String), r1)
  let r3 := match stripLit " " r2 with
    | some r => r
    | none => r2
  pure (qual, r3)

/-- Matcher for `^<kw> (includes|does not include) (.*)`: returns the method and the
search text. -/
def includesMatch (kw : String) (line : String) : Option (String × String) := do
  let r1 ← stripLit (kw ++ " ") line
  let m ← firstAlt ["includes", "does not include"] r1
  let r2 ← stripLit (m ++ " ") r1
  pure (m, r2)

/-- Matcher for `limitRegexp` (`^limit (to )?(\d+)( tasks?)?`): returns the parsed
count when at least one digit follows. -/
def limitMatch (line : String) : Option Nat := do
  let r1 ← stripLit "limit " line
  let r2 := match stripLit "to " r1 with
    | some r => r
    | none => r1
  let ds := r2.data.takeWhile Char.isDigit
  if ds.isEmpty then none else some (digitsToNat ds)

/-- The alternation of `sortByRegexp` paired with the enumeration the source casts
the capture to. -/
def sortablePropertyAlts : List (String × SortingProperty) :=
  [("urgency", SortingProperty.urgency), ("status", SortingProperty.status),
   ("priority", SortingProperty.priority), ("start", SortingProperty.start),
   ("scheduled", SortingProperty.scheduled), ("due", SortingProperty.due),
   ("done", SortingProperty.done), ("path", SortingProperty.path),
   ("description", SortingProperty.description)]

/-- Matcher for `sortByRegexp` (`^sort by (urgency|...|description)( reverse)?`). -/
def sortByMatch (line : String) : Option (SortingProperty × Bool) := do
  let r1 ← stripLit "sort by " line
  let (w, p) ← sortablePropertyAlts.find? fun wp => wp.1.data.isPrefixOf r1.data
  let r2 := String.mk (r1.data.drop w.data.length)
  pure (p, " reverse".data.isPrefixOf r2.data)

/-- Matcher for `hideOptionsRegexp` (`^hide (task count|...|edit button)`). -/
def hideMatch (line : String) : Option String := do
  let r1 ← stripLit "hide " line
  firstAlt ["task count", "backlink", "priority", "start date", "scheduled date",
    "done date", "due date", "recurrence rule", "edit button"] r1

/-- Modelled from the spec: date-text parsing is delegated to the external
chrono-node library plus moment's `startOf('day')`; neither is part of this
repository.  The spec only requires that some date texts parse to a calendar day and
others are invalid.  We model the parsable texts as ISO `YYYY-MM-DD` strings and the
resulting calendar day as `y*372 + (m-1)*31 + (d-1)`, which is injective and
monotone over valid dates; every other text yields the invalid moment (`none`). -/
def parseDate (input : String) : Option Nat :=
  match splitOnChar '-' input.data with
  | [y, m, d] =>
    if y.length == 4 && !y.isEmpty && y.all Char.isDigit
        && !m.isEmpty && m.all Char.isDigit
        && !d.isEmpty && d.all Char.isDigit then
      let yn := digitsToNat y
      let mn := digitsToNat m
      let dn := digitsToNat d
      if 1 ≤ mn && mn ≤ 12 && 1 ≤ dn && dn ≤ 31 then
        some (yn * 372 + (mn - 1) * 31 + (dn - 1))
      else none
    else none
  | _ => none

/-- Substring containment on character lists (JS `String.prototype.includes`). -/
def listContainsSub (needle : List Char) : List Char → Bool
  | [] => needle.isEmpty
  | c :: cs => needle.isPrefixOf (c :: cs) || listContainsSub needle cs

/-- JS `haystack.toLocaleLowerCase().includes(needle.toLocaleLowerCase())`
(part_001 lines 626-633). -/
def stringIncludesCaseInsensitive (haystack needle : String) : Bool :=
  listContainsSub (needle.data.map Char.toLower) (haystack.data.map Char.toLower)

/-! Compiled filter closures, lambda-lifted from the constructor and parse methods. -/

/-- The `done` literal filter: every task in the block is Done. -/
def doneFilter : Filter := fun tb =>
  some (tb.tasks.all fun t => t.status == Status.Done)

/-- The `not done` literal filter: some task in the block is not Done. -/
def notDoneFilter : Filter := fun tb =>
  some (tb.tasks.any fun t => t.status != Status.Done)

/-- The `is recurring` filter: the top-level task has a recurrence (empty block:
false). -/
def recurringFilter : Filter := fun tb =>
  some (match tb.tasks with
    | t :: _ => t.recurrence.isSome
    | [] => false)

/-- The `is not recurring` filter. -/
def notRecurringFilter : Filter := fun tb =>
  some (match tb.tasks with
    | t :: _ => t.recurrence.isNone
    | [] => false)

/-- The `exclude sub-items` filter: the top-level task has empty indentation. -/
def excludeSubItemsFilter : Filter := fun tb =>
  some (match tb.tasks with
    | t :: _ => t.indentation == ""
    | [] => false)

/-- The `no start date` filter (predicate exactly as in the source: every task's
start date is non-null). -/
def noStartFilter : Filter := fun tb =>
  some (tb.tasks.all fun t => t.startDate.isSome)

/-- The `no scheduled date` filter. -/
def noScheduledFilter : Filter := fun tb =>
  some (tb.tasks.all fun t => t.scheduledDate.isSome)

/-- The `no due date` filter. -/
def noDueFilter : Filter := fun tb =>
  some (tb.tasks.all fun t => t.dueDate.isSome)

/-- The `above` branch of `parsePriorityFilter` (lines 257-265): some task's
priority compares lexicographically below the threshold string, i.e. outranks it. -/
def priorityAboveFilter (p : Priority) : Filter := fun tb =>
  some (tb.tasks.any fun t =>
    if Priority.truthy t.priority then decide (Priority.localeCompare t.priority p < 0)
    else false)

/-- The `below` branch (lines 266-274): no task outranks the threshold. -/
def priorityBelowFilter (p : Priority) : Filter := fun tb =>
  some (!(tb.tasks.any fun t =>
    if Priority.truthy t.priority then decide (Priority.localeCompare t.priority p < 0)
    else false))

/-- The no-qualifier branch (lines 275-285): every task's priority equals the
threshold or compares lexicographically below it. -/
def priorityNeitherFilter (p : Priority) : Filter := fun tb =>
  some (tb.tasks.all fun t =>
    if Priority.truthy t.priority then
      t.priority == p || decide (Priority.localeCompare t.priority p < 0)
    else false)

/-- The `happens` filters (lines 302-339): flatten every task's start/scheduled/due
dates and test whether some present date compares as specified (`date && ...`:
a null date contributes false). -/
def happensFilter (qual : Option String) (fd : Option Nat) : Filter :=
  if qual = some "before" then fun tb =>
    some (((tb.tasks.map fun t => [t.startDate, t.scheduledDate, t.dueDate]).flatten).any
      fun d => match d with
        | some x => momentIsBefore x fd
        | none => false)
  else if qual = some "after" then fun tb =>
    some (((tb.tasks.map fun t => [t.startDate, t.scheduledDate, t.dueDate]).flatten).any
      fun d => match d with
        | some x => momentIsAfter x fd
        | none => false)
  else fun tb =>
    some (((tb.tasks.map fun t => [t.startDate, t.scheduledDate, t.dueDate]).flatten).any
      fun d => match d with
        | some x => momentIsSame x fd
        | none => false)

/-- The `starts` filters (lines 356-378): some task's start date compares as
specified, and a task without a start date counts as matching (the `: true` arm). -/
def startsFilter (qual : Option String) (fd : Option Nat) : Filter :=
  if qual = some "before" then fun tb =>
    some (tb.tasks.any fun t =>
      match t.startDate with
      | some s => momentIsBefore s fd
      | none => true)
  else if qual = some "after" then fun tb =>
    some (tb.tasks.any fun t =>
      match t.startDate with
      | some s => momentIsAfter s fd
      | none => true)
  else fun tb =>
    some (tb.tasks.any fun t =>
      match t.startDate with
      | some s => momentIsSame s fd
      | none => true)

/-- The `scheduled` filters (lines 394-413): some task's scheduled date compares as
specified; a task without one contributes false. -/
def scheduledFilter (qual : Option String) (fd : Option Nat) : Filter :=
  if qual = some "before" then fun tb =>
    some (tb.tasks.any fun t =>
      match t.scheduledDate with
      | some s => momentIsBefore s fd
      | none => false)
  else if qual = some "after" then fun tb =>
    some (tb.tasks.any fun t =>
      match t.scheduledDate with
      | some s => momentIsAfter s fd
      | none => false)
  else fun tb =>
    some (tb.tasks.any fun t =>
      match t.scheduledDate with
      | some s => momentIsSame s fd
      | none => false)

/-- The `due` filters (lines 430-448). -/
def dueFilter (qual : Option String) (fd : Option Nat) : Filter :=
  if qual = some "before" then fun tb =>
    some (tb.tasks.any fun t =>
      match t.dueDate with
      | some s => momentIsBefore s fd
      | none => false)
  else if qual = some "after" then fun tb =>
    some (tb.tasks.any fun t =>
      match t.dueDate with
      | some s => momentIsAfter s fd
      | none => false)
  else fun tb =>
    some (tb.tasks.any fun t =>
      match t.dueDate with
      | some s => momentIsSame s fd
      | none => false)

/-- The `done <date>` filters (lines 466-486): every task's done date compares as
specified; a task without one fails the match. -/
def doneDateFilter (qual : Option String) (fd : Option Nat) : Filter :=
  if qual = some "before" then fun tb =>
    some (tb.tasks.all fun t =>
      match t.doneDate with
      | some s => momentIsBefore s fd
      | none => false)
  else if qual = some "after" then fun tb =>
    some (tb.tasks.all fun t =>
      match t.doneDate with
      | some s => momentIsAfter s fd
      | none => false)
  else fun tb =>
    some (tb.tasks.all fun t =>
      match t.doneDate with
      | some s => momentIsSame s fd
      | none => false)

/-- The `path includes` filter (lines 496-502): length-guarded access to the first
task's path. -/
def pathIncludesFilter (text : String) : Filter := fun tb =>
  some (match tb.tasks with
    | t :: _ => stringIncludesCaseInsensitive t.path text
    | [] => false)

/-- The `path does not include` filter (lines 503-511): the source reads
`tb.tasks[0].path` without a length guard, so on an empty block it dereferences
`undefined` and throws (`none`). -/
def pathNotIncludesFilter (text : String) : Filter := fun tb =>
  (jsIdx 0 tb.tasks).map fun t => !stringIncludesCaseInsensitive t.path text

/-- The `description includes` filter (lines 526-539): some task's description, with
the global filter removed and trimmed, contains the text. -/
def descriptionIncludesFilter (text : String) : Filter := fun tb =>
  some (tb.tasks.any fun t =>
    stringIncludesCaseInsensitive (jsTrim (jsReplaceFirst t.description globalFilter)) text)

/-- The `description does not include` filter (lines 540-553). -/
def descriptionNotIncludesFilter (text : String) : Filter := fun tb =>
  some (!(tb.tasks.any fun t =>
    stringIncludesCaseInsensitive (jsTrim (jsReplaceFirst t.description globalFilter)) text))

/-- The `heading includes` filter (lines 566-577): some task has a preceding header
containing the text. -/
def headingIncludesFilter (text : String) : Filter := fun tb =>
  some (tb.tasks.any fun t =>
    match t.precedingHeader with
    | some h => stringIncludesCaseInsensitive h text
    | none => false)

/-- The `heading does not include` filter (lines 578-589). -/
def headingNotIncludesFilter (text : String) : Filter := fun tb =>
  some (!(tb.tasks.any fun t =>
    match t.precedingHeader with
    | some h => stringIncludesCaseInsensitive h text
    | none => false))

/-! The per-production parse methods. -/

/-- `parsePriorityFilter` (lines 230-291). -/
def parsePriorityFilter (q : QueryState) (line : String) : QueryState :=
  match priorityMatch line with
  | some (qual, w) =>
    let filterPriority : Option Priority :=
      if w = "low" then some Priority.Low
      else if w = "none" then some Priority.None
      else if w = "medium" then some Priority.Medium
      else if w = "high" then some Priority.High
      else none
    (match filterPriority with
     | none => { q with error := some "do not understand priority" }
     | some p =>
       if qual = some "above" then { q with filters := q.filters ++ [priorityAboveFilter p] }
       else if qual = some "below" then { q with filters := q.filters ++ [priorityBelowFilter p] }
       else { q with filters := q.filters ++ [priorityNeitherFilter p] })
  | none => { q with error := some "do not understand query filter (priority date)" }

/-- `parseHappensFilter` (lines 293-345): an invalid date records the error and
returns without pushing a filter. -/
def parseHappensFilter (q : QueryState) (line : String) : QueryState :=
  match dateMatch "happens" line with
  | some (qual, dateText) =>
    (match parseDate dateText with
     | none => { q with error := some "do not understand happens date" }
     | some fd => { q with filters := q.filters ++ [happensFilter qual (some fd)] })
  | none => { q with error := some "do not understand query filter (happens date)" }

/-- `parseStartFilter` (lines 347-384): an invalid date records the error and
returns without pushing a filter. -/
def parseStartFilter (q : QueryState) (line : String) : QueryState :=
  match dateMatch "starts" line with
  | some (qual, dateText) =>
    (match parseDate dateText with
     | none => { q with error := some "do not understand start date" }
     | some fd => { q with filters := q.filters ++ [startsFilter qual (some fd)] })
  | none => { q with error := some "do not understand query filter (start date)" }

/-- `parseScheduledFilter` (lines 386-419): on an invalid date the source records
the error but does not return, so the filter below is still built (around the
invalid moment) and pushed. -/
def parseScheduledFilter (q : QueryState) (line : String) : QueryState :=
  match dateMatch "scheduled" line with
  | some (qual, dateText) =>
    let filterDate := parseDate dateText
    let q1 := if filterDate.isNone then
        { q with error := some "do not understand scheduled date" }
      else q
    { q1 with filters := q1.filters ++ [scheduledFilter qual filterDate] }
  | none => { q with error := some "do not understand query filter (scheduled date)" }

/-- `parseDueFilter` (lines 421-455): an invalid date records the error and returns
without pushing a filter. -/
def parseDueFilter (q : QueryState) (line : String) : QueryState :=
  match dateMatch "due" line with
  | some (qual, dateText) =>
    (match parseDate dateText with
     | none => { q with error := some "do not understand due date" }
     | some fd => { q with filters := q.filters ++ [dueFilter qual (some fd)] })
  | none => { q with error := some "do not understand query filter (due date)" }

/-- `parseDoneFilter` (lines 457-490): an invalid date records the error and returns;
a non-matching line does nothing (this method has no else branch). -/
def parseDoneFilter (q : QueryState) (line : String) : QueryState :=
  match dateMatch "done" line with
  | some (qual, dateText) =>
    (match parseDate dateText with
     | none => { q with error := some "do not understand done date" }
     | some fd => { q with filters := q.filters ++ [doneDateFilter qual (some fd)] })
  | none => q

/-- `parsePathFilter` (lines 492-518). -/
def parsePathFilter (q : QueryState) (line : String) : QueryState :=
  match includesMatch "path" line with
  | some (m, text) =>
    if m = "includes" then { q with filters := q.filters ++ [pathIncludesFilter text] }
    else if m = "does not include" then
      { q with filters := q.filters ++ [pathNotIncludesFilter text] }
    else { q with error := some "do not understand query filter (path)" }
  | none => { q with error := some "do not understand query filter (path)" }

/-- `parseDescriptionFilter` (lines 520-560). -/
def parseDescriptionFilter (q : QueryState) (line : String) : QueryState :=
  match includesMatch "description" line with
  | some (m, text) =>
    if m = "includes" then
      { q with filters := q.filters ++ [descriptionIncludesFilter text] }
    else if m = "does not include" then
      { q with filters := q.filters ++ [descriptionNotIncludesFilter text] }
    else { q with error := some "do not understand query filter (description)" }
  | none => { q with error := some "do not understand query filter (description)" }

/-- `parseHeadingFilter` (lines 562-596). -/
def parseHeadingFilter (q : QueryState) (line : String) : QueryState :=
  match includesMatch "heading" line with
  | some (m, text) =>
    if m = "includes" then
      { q with filters := q.filters ++ [headingIncludesFilter text] }
    else if m = "does not include" then
      { q with filters := q.filters ++ [headingNotIncludesFilter text] }
    else { q with error := some "do not understand query filter (heading)" }
  | none => { q with error := some "do not understand query filter (heading)" }

/-- `parseLimit` (lines 598-607). -/
def parseLimit (q : QueryState) (line : String) : QueryState :=
  match limitMatch line with
  | some n => { q with limit := some n }
  | none => { q with error := some "do not understand query limit" }

/-- `parseSortBy` (lines 609-619). -/
def parseSortBy (q : QueryState) (line : String) : QueryState :=
  match sortByMatch line with
  | some (p, rev) => { q with sorting := q.sorting ++ [{ property := p, reverse := rev }] }
  | none => { q with error := some "do not understand query sorting" }

/-- `parseHideOptions` (lines 191-228). -/
def parseHideOptions (q : QueryState) (line : String) : QueryState :=
  match hideMatch line with
  | none => q
  | some option =>
    if option = "task count" then
      { q with layoutOptions := { q.layoutOptions with hideTaskCount := true } }
    else if option = "backlink" then
      { q with layoutOptions := { q.layoutOptions with hideBacklinks := true } }
    else if option = "priority" then
      { q with layoutOptions := { q.layoutOptions with hidePriority := true } }
    else if option = "start date" then
      { q with layoutOptions := { q.layoutOptions with hideStartDate := true } }
    else if option = "scheduled date" then
      { q with layoutOptions := { q.layoutOptions with hideScheduledDate := true } }
    else if option = "due date" then
      { q with layoutOptions := { q.layoutOptions with hideDueDate := true } }
    else if option = "done date" then
      { q with layoutOptions := { q.layoutOptions with hideDoneDate := true } }
    else if option = "recurrence rule" then
      { q with layoutOptions := { q.layoutOptions with hideRecurrenceRule := true } }
    else if option = "edit button" then
      { q with layoutOptions := { q.layoutOptions with hideEditButton := true } }
    else { q with error := some "do not understand hide option" }

/-- One trimmed line through the constructor's `switch (true)` dispatch (lines
66-168), in the source's case order; the default case records the terminal error. -/
def parseLine (q : QueryState) (line : String) : QueryState :=
  if line = "" then q
  else if line = "done" then { q with filters := q.filters ++ [doneFilter] }
  else if line = "not done" then { q with filters := q.filters ++ [notDoneFilter] }
  else if line = "is recurring" then { q with filters := q.filters ++ [recurringFilter] }
  else if line = "is not recurring" then { q with filters := q.filters ++ [notRecurringFilter] }
  else if line = "exclude sub-items" then { q with filters := q.filters ++ [excludeSubItemsFilter] }
  else if line = "no start date" then { q with filters := q.filters ++ [noStartFilter] }
  else if line = "no scheduled date" then { q with filters := q.filters ++ [noScheduledFilter] }
  else if line = "no due date" then { q with filters := q.filters ++ [noDueFilter] }
  else if "short".data.isPrefixOf line.data then
    { q with layoutOptions := { q.layoutOptions with shortMode := true } }
  else if (priorityMatch line).isSome then parsePriorityFilter q line
  else if (dateMatch "happens" line).isSome then parseHappensFilter q line
  else if (dateMatch "starts" line).isSome then parseStartFilter q line
  else if (dateMatch "scheduled" line).isSome then parseScheduledFilter q line
  else if (dateMatch "due" line).isSome then parseDueFilter q line
  else if (dateMatch "done" line).isSome then parseDoneFilter q line
  else if (includesMatch "path" line).isSome then parsePathFilter q line
  else if (includesMatch "description" line).isSome then parseDescriptionFilter q line
  else if (includesMatch "heading" line).isSome then parseHeadingFilter q line
  else if (limitMatch line).isSome then parseLimit q line
  else if (sortByMatch line).isSome then parseSortBy q line
  else if (hideMatch line).isSome then parseHideOptions q line
  else if "#".data.isPrefixOf line.data then q
  else { q with error := some "do not understand query" }

/-- The Query constructor (lines 66-169): split the source on newlines, trim each
line, and feed the lines through the dispatch in order. -/
def queryOfSource (source : String) : QueryState :=
  ((splitOnChar '\n' source.data).map (fun l => String.mk (trimChars l))).foldl parseLine {}

/-! ## Cache: indexFile (src/unnamed/part_000, lines 211-380) -/

/-- A line range of the metadata cache (`position.start.line` / `position.end.line`;
only the line components are consulted by the indexer). -/
structure Pos where
  startLine : Nat
  endLine : Nat
deriving DecidableEq, Repr

/-- One entry of `fileCache.listItems`: the checkbox character when the item is a
checklist item (`task !== undefined`), its position, and its declared structural
parent (`-1` meaning top-level). -/
structure ListItem where
  task : Option Char
  position : Pos
  parent : Int
deriving DecidableEq, Repr

/-- One entry of `fileCache.sections` (type tag plus position). -/
structure SectionCache where
  type : String
  position : Pos
deriving DecidableEq, Repr

/-- The structural metadata the host returns for a document. -/
structure FileCache where
  listItems : Option (List ListItem)
  sections : Option (List SectionCache)
deriving DecidableEq, Repr

/-- `Cache.getSection` (lines 317-339): the first section of type `list` whose line
range contains the task's line, or null. -/
def getSection (lineNumberTask : Nat) (sections : Option (List SectionCache)) :
    Option SectionCache :=
  match sections with
  | none => none
  | some ss => ss.find? fun s =>
      s.type == "list" && decide (s.position.startLine ≤ lineNumberTask)
        && decide (lineNumberTask ≤ s.position.endLine)

/-- The scan of `Cache.getPrecedingHeader` (lines 354-363): walk the sections in
order, remembering the last heading section whose start line is at or before the
task's line, stopping at the first heading beyond it. -/
def findPrecedingHeaderSection (lineNumberTask : Nat) (acc : Option SectionCache) :
    List SectionCache → Option SectionCache
  | [] => acc
  | s :: rest =>
    if s.type == "heading" then
      if decide (lineNumberTask < s.position.startLine) then acc
      else findPrecedingHeaderSection lineNumberTask (some s) rest
    else findPrecedingHeaderSection lineNumberTask acc rest

/-- The `headerRegex` of `getPrecedingHeader` (`^#+ +(.*)`, line 373): one or more
hashes, one or more spaces, capture the rest. -/
def headerMatch (line : String) : Option String :=
  let cs := line.data
  let hashes := cs.takeWhile (· == '#')
  if hashes.isEmpty then none
  else
    let rest := cs.drop hashes.length
    let sps := rest.takeWhile (· == ' ')
    if sps.isEmpty then none
    else some (String.mk (rest.drop sps.length))

/-- `Cache.getPrecedingHeader` (lines 341-380).  The source reads
`fileLines[lineNumberPrecedingHeader]`; the metadata cache guarantees that a
section's start line is in range of the file's lines, and we model the (impossible
for well-formed metadata) out-of-range access as the empty line. -/
def getPrecedingHeader (lineNumberTask : Nat) (sections : Option (List SectionCache))
    (fileLines : List String) : Option String :=
  match sections with
  | none => none
  | some ss =>
    match findPrecedingHeaderSection lineNumberTask none ss with
    | none => none
    | some sec => headerMatch (fileLines.getD sec.position.startLine "")

/-- Modelled from the spec: `Task.fromLine` lives in Task.ts, which is not under
src/.  Per the spec (section 3) it parses one checklist line plus section/position
metadata into a Task, or null when the line is not a managed checklist line.  We
model a managed line as optional leading spaces, then `- [`, a status character,
`] `, and the description; the status character maps per the README: space → Todo,
`x` → Done, `b` → Blocked, anything else → InProgress.  Priority, date and
recurrence annotations inside the description are not needed by any claim and are
modelled as absent (priority None, null dates, null recurrence, urgency 0). -/
def taskFromLine (line : String) (path : String) (sectionStart : Nat)
    (sectionIndex : Nat) (precedingHeader : Option String) (id : Nat)
    (parent : Int) : Option Task :=
  let indentation := String.mk (line.data.takeWhile (· == ' '))
  let body := line.data.dropWhile (· == ' ')
  match body with
  | '-' :: ' ' :: '[' :: c :: ']' :: ' ' :: rest =>
    let status := if c == ' ' then Status.Todo
      else if c == 'x' then Status.Done
      else if c == 'b' then Status.Blocked
      else Status.InProgress
    some { path := path, description := String.mk rest, indentation := indentation,
           status := status, priority := Priority.None, startDate := none,
           scheduledDate := none, dueDate := none, doneDate := none,
           recurrence := none, urgency := 0, precedingHeader := precedingHeader,
           sectionStart := sectionStart, sectionIndex := sectionIndex, id := id,
           parent := parent }
  | _ => none

/-- The mutable locals of the `indexFile` scan loop (lines 240-244). -/
structure IndexLoopState where
  taskblocks : List TaskBlock
  currentSection : Option SectionCache
  sectionIndex : Nat
  currentID : Nat
  newTaskBlock : TaskBlock
  first : Bool
deriving Repr

/-- The section-advance test of the loop (lines 247-251): no current section yet, or
the item's line lies past the current section's end. -/
def needNewSection (cur : Option SectionCache) (line : Nat) : Bool :=
  match cur with
  | none => true
  | some cs => decide (cs.position.endLine < line)

/-- One iteration of the `indexFile` scan loop (lines 245-311).  The source's
last-item test `listItem == listItems[listItems.length - 1]` is reference equality
against the final array element; the metadata arrays contain distinct objects, so it
holds exactly on the final iteration, which we model by the running index.  The
source reads `fileLines[listItem.position.start.line]`; for well-formed metadata the
line is in range, and we model the out-of-range access as the empty line (which
parses to no task). -/
def indexFileStep (sections : Option (List SectionCache)) (fileLines : List String)
    (path : String) (lastIdx : Nat) (st : IndexLoopState) (p : Nat × ListItem) :
    IndexLoopState :=
  let (idx, listItem) := p
  if listItem.task.isSome then
    let st :=
      if needNewSection st.currentSection listItem.position.startLine then
        { st with
            currentSection := getSection listItem.position.startLine sections,
            currentID := 0, sectionIndex := 0, first := true }
      else st
    match st.currentSection with
    | none =>
      -- "Save final taskblock"; cannot process a task without a section: continue
      -- (skipping the trailing `first = false; currentID += 1` as well).
      { st with taskblocks := st.taskblocks ++ [st.newTaskBlock] }
    | some cs =>
      let line := fileLines.getD listItem.position.startLine ""
      let task := taskFromLine line path cs.position.startLine st.sectionIndex
        (getPrecedingHeader listItem.position.startLine sections fileLines)
        st.currentID listItem.parent
      let st :=
        match task with
        | none => st
        | some t =>
          let st := { st with sectionIndex := st.sectionIndex + 1 }
          let st :=
            if listItem.parent == -1 && !st.first then
              { st with taskblocks := st.taskblocks ++ [st.newTaskBlock],
                        newTaskBlock := { tasks := [t] } }
            else
              { st with newTaskBlock := { tasks := st.newTaskBlock.tasks ++ [t] } }
          if idx == lastIdx then
            { st with taskblocks := st.taskblocks ++ [st.newTaskBlock] }
          else st
      { st with first := false, currentID := st.currentID + 1 }
  else st

/-- `Cache.indexFile` (lines 211-315) as a pure transformation of the index: absent
metadata returns with the index untouched; otherwise the document's blocks are
removed via the shared path filter and the scan loop appends the freshly parsed
blocks. -/
def indexFile (fileCache : Option FileCache) (fileLines : List String) (path : String)
    (taskblocks : List TaskBlock) : List TaskBlock :=
  match fileCache with
  | none => taskblocks
  | some fc =>
    let listItems := fc.listItems.getD []
    let blocks := removeBlocksOfPath path taskblocks
    let init : IndexLoopState :=
      { taskblocks := blocks, currentSection := none, sectionIndex := 0,
        currentID := 0, newTaskBlock := { tasks := [] }, first := true }
    let lastIdx := listItems.length - 1
    (listItems.enum.foldl (indexFileStep fc.sections fileLines path lastIdx) init).taskblocks

/-- The grouping rule as the spec states it, for comparison with the loop above
(spec 4.1 steps 5-6): the first task opens the accumulating block; a later task
with no structural parent finalizes the accumulated block and starts a new one; a
task with a parent joins the current block; reaching the end finalizes the
remaining block. -/
def specGroupGo (acc : List Task) : List (Task × Int) → List TaskBlock
  | [] => [{ tasks := acc }]
  | (t, par) :: rest =>
    if par == -1 then { tasks := acc } :: specGroupGo [t] rest
    else specGroupGo (acc ++ [t]) rest

/-- Entry point of the spec-side grouping: no items give no blocks; otherwise the
first task opens the block. -/
def specGroup : List (Task × Int) → List TaskBlock
  | [] => []
  | (t, _) :: rest => specGroupGo [t] rest

/-! ## Cache lifecycle (src/unnamed/part_000, lines 42-124 and 197-209) -/

/-- The indexer lifecycle states (the `State` enum). -/
inductive CacheState where
  | Cold
  | Initializing
  | Warm
deriving DecidableEq, Repr

/-- The document-lifecycle notifications the cache subscribes to. -/
inductive Event where
  | resolved
  | changed
  | created
  | deleted
  | renamed
deriving DecidableEq, Repr

/-- The observable lifecycle data of one cache instance: the current state, the
`loadedAfterFirstResolve` flag, how many times `loadVault` has run, and the sequence
of values the `state` field has taken. -/
structure CacheRun where
  state : CacheState
  loadedAfterFirstResolve : Bool
  loads : Nat
  trace : List CacheState
deriving DecidableEq, Repr

/-- `Cache.loadVault` (lines 197-209) under its exclusive region: sets
`Initializing`, indexes every document, then sets `Warm` and notifies.  We record
both state writes in the trace and count the invocation. -/
def loadVault (c : CacheRun) : CacheRun :=
  { c with state := CacheState.Warm, loads := c.loads + 1,
           trace := c.trace ++ [CacheState.Initializing, CacheState.Warm] }

/-- The constructor (lines 42-69): state starts `Cold`, the flag false, and the
constructor itself calls `loadVault()` at line 68.  The mutex serializes the load
before any queued notification handler runs. -/
def cacheConstruct : CacheRun :=
  loadVault { state := CacheState.Cold, loadedAfterFirstResolve := false, loads := 0,
              trace := [CacheState.Cold] }

/-- One notification through the subscriptions (lines 100-195): `resolved` runs
`loadVault` only when the flag is still unset (and sets it); the change/create
handlers reindex one file and the delete/rename handlers filter or map the block
list — none of them touch `state`, the flag, or call `loadVault`. -/
def handleEvent (c : CacheRun) : Event → CacheRun
  | Event.resolved =>
    if !c.loadedAfterFirstResolve then
      loadVault { c with loadedAfterFirstResolve := true }
    else c
  | _ => c

/-- A whole serialized run: construction followed by the notifications in order. -/
def runEvents (es : List Event) : CacheRun :=
  es.foldl handleEvent cacheConstruct

/-! ## Concrete fixtures and claim-side (spec-side) definitions -/

/-- A plain managed task: Todo, no priority, no dates, urgency 0. -/
def baseTask : Task :=
  { path := "a.md", description := "x", indentation := "", status := Status.Todo,
    priority := Priority.None, startDate := none, scheduledDate := none,
    dueDate := none, doneDate := none, recurrence := none, urgency := 0,
    precedingHeader := none, sectionStart := 0, sectionIndex := 0, id := 0,
    parent := -1 }

/-- A block holding one High-priority task. -/
def highPriorityBlock : TaskBlock :=
  { tasks := [{ baseTask with priority := Priority.High }] }

/-- A block holding one task with no dates at all. -/
def noDatesBlock : TaskBlock := { tasks := [baseTask] }

/-- A block of one task with urgency 1. -/
def blockA : TaskBlock := { tasks := [{ baseTask with urgency := 1 }] }

/-- A block of one task with urgency 2. -/
def blockB : TaskBlock := { tasks := [{ baseTask with urgency := 2 }] }

/-- The query surface word for each priority threshold. -/
def priorityWord : Priority → String
  | Priority.Low => "low"
  | Priority.None => "none"
  | Priority.Medium => "medium"
  | Priority.High => "high"

/-- The claim's reading of the no-qualifier priority filter: the block matches iff
every task's priority is the threshold or lower-ranked. -/
def claimPriorityNeither (p : Priority) (tb : TaskBlock) : Bool :=
  tb.tasks.all fun t => t.priority == p || Priority.outranks p t.priority

/-- The claim's reading of the happens filter: some task matches, and a task
lacking a date field counts as matching (vacuously true) there. -/
def claimHappensMatch (cmp : Nat → Bool) (tb : TaskBlock) : Bool :=
  tb.tasks.any fun t => [t.startDate, t.scheduledDate, t.dueDate].any fun d =>
    match d with
    | some x => cmp x
    | none => true

/-- Scenario fixture: two unindented checklist items on lines 0 and 1. -/
def itemsAB : List ListItem :=
  [{ task := some ' ', position := { startLine := 0, endLine := 0 }, parent := -1 },
   { task := some ' ', position := { startLine := 1, endLine := 1 }, parent := -1 }]

/-- Scenario fixture: one list section covering lines 0-1. -/
def sectionsAB : List SectionCache :=
  [{ type := "list", position := { startLine := 0, endLine := 1 } }]

/-- Scenario fixture: metadata for the two-top-level-tasks document. -/
def fcAB : FileCache := { listItems := some itemsAB, sections := some sectionsAB }

/-- Scenario fixture: the two source lines. -/
def linesAB : List String := ["- [ ] task A", "- [ ] task B"]

/-- Scenario fixture: a top-level item then an indented child whose structural
parent is the item at line 0. -/
def itemsPC : List ListItem :=
  [{ task := some ' ', position := { startLine := 0, endLine := 0 }, parent := -1 },
   { task := some ' ', position := { startLine := 1, endLine := 1 }, parent := 0 }]

/-- Scenario fixture: metadata for the parent/child document. -/
def fcPC : FileCache := { listItems := some itemsPC, sections := some sectionsAB }

/-- Scenario fixture: the parent and indented child lines. -/
def linesPC : List String := ["- [ ] parent", "  - [ ] child"]

/-- The Task parsed from scenario line `- [ ] task A`. -/
def taskA : Task :=
  { path := "f.md", description := "task A", indentation := "",
    status := Status.Todo, priority := Priority.None, startDate := none,
    scheduledDate := none, dueDate := none, doneDate := none, recurrence := none,
    urgency := 0, precedingHeader := none, sectionStart := 0, sectionIndex := 0,
    id := 0, parent := -1 }

/-- The Task parsed from scenario line `- [ ] task B`. -/
def taskB : Task :=
  { taskA with description := "task B", sectionIndex := 1, id := 1 }

/-- The Task parsed from scenario line `- [ ] parent`. -/
def parentTask : Task :=
  { taskA with description := "parent" }

/-- The Task parsed from scenario line `  - [ ] child` (structural parent at
index 0). -/
def childTask : Task :=
  { taskA with
    description := "child", indentation := "  ", sectionIndex := 1, id := 1,
    parent := 0 }

/-! ## Theorems -/

/-- C1: the rename handler's map callback returns the original block in every
branch (the rewritten `newTaskBlock` is built and discarded), so a rename leaves the
index — in particular every task's path — exactly as it was; no block is replaced by
a block with the new path.  This contradicts the claim that every affected block's
tasks are rewritten to `newPath`. -/
theorem renameFile_is_identity (newFilePath oldPath : String)
    (taskblocks : List TaskBlock) :
    renameFile newFilePath oldPath taskblocks = taskblocks := by
  unfold renameFile
  induction taskblocks with
  | nil => rfl
  | cons tb rest ih =>
    rw [List.map_cons, ih]
    rcases tb with ⟨tasks⟩
    cases tasks with
    | nil => rfl
    | cons t ts =>
      by_cases h : t.path = oldPath
      · simp only [h, if_true]
      · simp only [h, if_false]

/-- C3: the done-date comparator reads `a_sorted[-1]`, which is `undefined` on a JS
array, so the comparator throws on every pair of blocks (empty or not) instead of
comparing by the latest done date. -/
theorem compareByDoneDate_always_throws (a b : TaskBlock) :
    compareByDoneDate a b = none := by
  have hneg : ∀ (l : List Task), jsIdx (-1) l = none := by
    intro l
    unfold jsIdx
    rw [dif_neg]
    rintro ⟨h1, _⟩
    exact absurd h1 (by decide)
  unfold compareByDoneDate
  simp [hneg]

/-- C4 counterexample: an index holding one empty block, after `deleteFile "a.md"`,
is the empty index — the empty block was removed by the path comparison, while the
claim says every empty block survives. -/
theorem empty_block_removed_cex :
    deleteFile "a.md" [({ tasks := [] } : TaskBlock)] = []
    ∧ ([] : List TaskBlock) ≠ [({ tasks := [] } : TaskBlock)] :=
  ⟨rfl, by decide⟩

/-- C4 amended: the path comparison of `deleteFile` and of `indexFile`'s removal
step (the shared filter) removes every empty block, whatever the path: no empty
block survives it. -/
theorem path_removal_drops_empty_blocks (filePath : String) (bs : List TaskBlock) :
    ((removeBlocksOfPath filePath bs).all fun tb => !tb.tasks.isEmpty) = true
    ∧ ((deleteFile filePath bs).all fun tb => !tb.tasks.isEmpty) = true := by
  have key : ((removeBlocksOfPath filePath bs).all fun tb => !tb.tasks.isEmpty) = true := by
    rw [List.all_eq_true]
    intro tb hm
    have hp := List.of_mem_filter hm
    rcases tb with ⟨tasks⟩
    cases tasks with
    | nil => exact Bool.noConfusion hp
    | cons t ts => rfl
  exact ⟨key, key⟩

/-- C6: two core evaluations throw on an empty block — the compiled
`path does not include` filter dereferences `tb.tasks[0]` without a length guard,
and `compareByPriority` dereferences `a_sorted[0]` of an empty sorted task list —
contradicting the policy that filters and comparators never raise. -/
theorem path_dni_filter_and_priority_comparator_throw :
    ((queryOfSource "path does not include x").filters.map fun f => f { tasks := [] })
      = [none]
    ∧ compareByPriority { tasks := [] } { tasks := [] } = none :=
  ⟨rfl, rfl⟩

/-- C10: a `scheduled` line with unparsable date text records the parse error and
still pushes a compiled filter (built around the invalid moment, so it matches no
scheduled date), while the start, due, done and happens parsers record the error and
push nothing. -/
theorem scheduled_invalid_date_pushes_filter :
    (queryOfSource "scheduled before blah").error = some "do not understand scheduled date"
    ∧ (queryOfSource "scheduled before blah").filters.length = 1
    ∧ ((queryOfSource "scheduled before blah").filters.map fun f =>
        f { tasks := [{ baseTask with scheduledDate := some 5 }] }) = [some false]
    ∧ (queryOfSource "starts before blah").error = some "do not understand start date"
    ∧ (queryOfSource "starts before blah").filters.length = 0
    ∧ (queryOfSource "due before blah").error = some "do not understand due date"
    ∧ (queryOfSource "due before blah").filters.length = 0
    ∧ (queryOfSource "done before blah").error = some "do not understand done date"
    ∧ (queryOfSource "done before blah").filters.length = 0
    ∧ (queryOfSource "happens before blah").error = some "do not understand happens date"
    ∧ (queryOfSource "happens before blah").filters.length = 0 :=
  ⟨rfl, rfl, rfl, rfl, rfl, rfl, rfl, rfl, rfl, rfl, rfl⟩

/-- C7 counterexample: with no resolved notification at all the full-vault load has
already run once (the constructor calls it), and after the first resolved
notification it has run twice; the state trace re-enters Initializing from Warm. -/
theorem lifecycle_cex :
    (runEvents []).loads = 1
    ∧ (runEvents [Event.resolved]).loads = 2
    ∧ (runEvents [Event.resolved]).trace
        = [CacheState.Cold, CacheState.Initializing, CacheState.Warm,
           CacheState.Initializing, CacheState.Warm] := by
  decide

/-- C2 counterexample: for query `priority medium` a block containing one
High-priority task is kept by the compiled filter, while the claim (every task is
the threshold or lower-ranked) says it must be excluded. -/
theorem priority_no_qualifier_cex :
    ((queryOfSource "priority medium").filters.map fun f => f highPriorityBlock)
      = [some true]
    ∧ claimPriorityNeither Priority.Medium highPriorityBlock = false :=
  ⟨rfl, rfl⟩

/-- C5 counterexample: after `Sort.by` returns, the caller's array (sorted in place
by `Array.prototype.sort`) holds the sorted order, not the original order. -/
theorem sortBy_mutates_caller_cex :
    callerArrayAfterSortBy [] [blockA, blockB] = some [blockB, blockA]
    ∧ some [blockB, blockA] ≠ some [blockA, blockB] :=
  ⟨rfl, by decide⟩

/-- C8 counterexample: for query `happens before 2024-01-05` a block whose single
task has no dates is rejected by the compiled filter (`date && ...` makes a null
date contribute false), while the claim's vacuous-truth reading accepts it. -/
theorem happens_missing_dates_cex :
    ((queryOfSource "happens before 2024-01-05").filters.map fun f => f noDatesBlock)
      = [some false]
    ∧ claimHappensMatch (fun x => decide (x < 752932)) noDatesBlock = true :=
  ⟨rfl, rfl⟩

/-- Once the first-resolve flag is set, no sequence of notifications changes the
cache's lifecycle data. -/
theorem foldl_handleEvent_flag_true (es : List Event) :
    ∀ c : CacheRun, c.loadedAfterFirstResolve = true → es.foldl handleEvent c = c := by
  induction es with
  | nil => intro c _; rfl
  | cons e rest ih =>
    intro c h
    have hstep : handleEvent c e = c := by
      cases e <;> simp [handleEvent, h]
    rw [List.foldl_cons, hstep]
    exact ih c h

/-- From an unset flag, a run performs exactly one more load when some resolved
notification occurs, and none otherwise. -/
theorem foldl_handleEvent_flag_false (es : List Event) :
    ∀ c : CacheRun, c.loadedAfterFirstResolve = false →
      es.foldl handleEvent c =
        if Event.resolved ∈ es then loadVault { c with loadedAfterFirstResolve := true }
        else c := by
  induction es with
  | nil => intro c _; simp
  | cons e rest ih =>
    intro c h
    rw [List.foldl_cons]
    cases e with
    | resolved =>
      have hstep : handleEvent c Event.resolved
          = loadVault { c with loadedAfterFirstResolve := true } := by
        simp [handleEvent, h]
      rw [hstep, foldl_handleEvent_flag_true rest _ rfl]
      simp
    | changed =>
      rw [show handleEvent c Event.changed = c from rfl, ih c h]
      simp
    | created =>
      rw [show handleEvent c Event.created = c from rfl, ih c h]
      simp
    | deleted =>
      rw [show handleEvent c Event.deleted = c from rfl, ih c h]
      simp
    | renamed =>
      rw [show handleEvent c Event.renamed = c from rfl, ih c h]
      simp

/-- C7 amended: the constructor itself runs the full-vault load once (Cold →
Initializing → Warm), and the first resolved notification triggers exactly one more
load — re-entering Initializing from Warm once — after which the state stays Warm
and no further notification ever loads again. -/
theorem lifecycle_amended (es : List Event) :
    (runEvents es).loads = 1 + (if Event.resolved ∈ es then 1 else 0)
    ∧ (runEvents es).state = CacheState.Warm
    ∧ (runEvents es).trace
        = [CacheState.Cold, CacheState.Initializing, CacheState.Warm]
          ++ (if Event.resolved ∈ es then [CacheState.Initializing, CacheState.Warm] else [])
    ∧ ((runEvents es).loadedAfterFirstResolve = true ↔ Event.resolved ∈ es) := by
  unfold runEvents
  rw [foldl_handleEvent_flag_false es cacheConstruct rfl]
  by_cases hm : Event.resolved ∈ es
  · simp [hm, cacheConstruct, loadVault]
  · simp [hm, cacheConstruct, loadVault]

/-- The truthiness-guarded lexicographic test of the priority filters agrees with
the spec-side outranking relation. -/
theorem localeCompare_lt_eq_outranks (a b : Priority) :
    (if Priority.truthy a then decide (Priority.localeCompare a b < 0) else false)
      = Priority.outranks a b := by
  cases a <;> cases b <;> rfl

/-- The no-qualifier filter body per task: equal to the threshold, or outranking it. -/
theorem priority_neither_body_eq (a b : Priority) :
    (if Priority.truthy a then a == b || decide (Priority.localeCompare a b < 0) else false)
      = (a == b || Priority.outranks a b) := by
  cases a <;> cases b <;> rfl

/-- Behaviour of the compiled `above` priority filter. -/
theorem priorityAboveFilter_eval (p : Priority) (tb : TaskBlock) :
    priorityAboveFilter p tb = some (tb.tasks.any fun t => Priority.outranks t.priority p) := by
  unfold priorityAboveFilter
  simp only [localeCompare_lt_eq_outranks]

/-- Behaviour of the compiled `below` priority filter. -/
theorem priorityBelowFilter_eval (p : Priority) (tb : TaskBlock) :
    priorityBelowFilter p tb
      = some (!tb.tasks.any fun t => Priority.outranks t.priority p) := by
  unfold priorityBelowFilter
  simp only [localeCompare_lt_eq_outranks]

/-- Behaviour of the compiled no-qualifier priority filter. -/
theorem priorityNeitherFilter_eval (p : Priority) (tb : TaskBlock) :
    priorityNeitherFilter p tb
      = some (tb.tasks.all fun t => t.priority == p || Priority.outranks t.priority p) := by
  unfold priorityNeitherFilter
  simp only [priority_neither_body_eq]

/-- C2 amended: for every threshold and block, `priority above` matches iff some
task outranks the threshold, `priority below` matches iff no task outranks it, and
the bare form matches iff every task's priority is the threshold or HIGHER-ranked
(the source's `every (equal or outranks)` — not "threshold or lower-ranked" as the
claim stated). -/
theorem priority_filter_modes (p : Priority) (tb : TaskBlock) :
    ((queryOfSource ("priority above " ++ priorityWord p)).filters.map fun f => f tb)
      = [some (tb.tasks.any fun t => Priority.outranks t.priority p)]
    ∧ ((queryOfSource ("priority below " ++ priorityWord p)).filters.map fun f => f tb)
      = [some (!tb.tasks.any fun t => Priority.outranks t.priority p)]
    ∧ ((queryOfSource ("priority " ++ priorityWord p)).filters.map fun f => f tb)
      = [some (tb.tasks.all fun t => t.priority == p || Priority.outranks t.priority p)] := by
  have hqa : (queryOfSource ("priority above " ++ priorityWord p)).filters
      = [priorityAboveFilter p] := by
    cases p <;> rfl
  have hqb : (queryOfSource ("priority below " ++ priorityWord p)).filters
      = [priorityBelowFilter p] := by
    cases p <;> rfl
  have hqn : (queryOfSource ("priority " ++ priorityWord p)).filters
      = [priorityNeitherFilter p] := by
    cases p <;> rfl
  refine ⟨?_, ?_, ?_⟩
  · rw [hqa, List.map_cons, List.map_nil, priorityAboveFilter_eval]
  · rw [hqb, List.map_cons, List.map_nil, priorityBelowFilter_eval]
  · rw [hqn, List.map_cons, List.map_nil, priorityNeitherFilter_eval]

/-- C8 amended: a missing date is vacuously matching only for the `starts`
comparisons; for `happens` a null date contributes nothing (a task with no dates at
all never matches), and for `scheduled` and `due` a task lacking the date does not
contribute a match.  Stated through the full parser at the date 2024-01-05
(calendar day 752932 in the model), for all three comparison forms. -/
theorem date_filters_missing_date_semantics (tb : TaskBlock) :
    ((queryOfSource "starts before 2024-01-05").filters.map fun f => f tb)
      = [some (tb.tasks.any fun t => match t.startDate with
          | some s => decide (s < 752932)
          | none => true)]
    ∧ ((queryOfSource "starts after 2024-01-05").filters.map fun f => f tb)
      = [some (tb.tasks.any fun t => match t.startDate with
          | some s => decide (752932 < s)
          | none => true)]
    ∧ ((queryOfSource "starts on 2024-01-05").filters.map fun f => f tb)
      = [some (tb.tasks.any fun t => match t.startDate with
          | some s => s == 752932
          | none => true)]
    ∧ ((queryOfSource "happens before 2024-01-05").filters.map fun f => f tb)
      = [some (((tb.tasks.map fun t => [t.startDate, t.scheduledDate, t.dueDate]).flatten).any
          fun d => match d with
            | some x => decide (x < 752932)
            | none => false)]
    ∧ ((queryOfSource "happens after 2024-01-05").filters.map fun f => f tb)
      = [some (((tb.tasks.map fun t => [t.startDate, t.scheduledDate, t.dueDate]).flatten).any
          fun d => match d with
            | some x => decide (752932 < x)
            | none => false)]
    ∧ ((queryOfSource "happens on 2024-01-05").filters.map fun f => f tb)
      = [some (((tb.tasks.map fun t => [t.startDate, t.scheduledDate, t.dueDate]).flatten).any
          fun d => match d with
            | some x => x == 752932
            | none => false)]
    ∧ ((queryOfSource "scheduled before 2024-01-05").filters.map fun f => f tb)
      = [some (tb.tasks.any fun t => match t.scheduledDate with
          | some s => decide (s < 752932)
          | none => false)]
    ∧ ((queryOfSource "scheduled after 2024-01-05").filters.map fun f => f tb)
      = [some (tb.tasks.any fun t => match t.scheduledDate with
          | some s => decide (752932 < s)
          | none => false)]
    ∧ ((queryOfSource "scheduled on 2024-01-05").filters.map fun f => f tb)
      = [some (tb.tasks.any fun t => match t.scheduledDate with
          | some s => s == 752932
          | none => false)]
    ∧ ((queryOfSource "due before 2024-01-05").filters.map fun f => f tb)
      = [some (tb.tasks.any fun t => match t.dueDate with
          | some s => decide (s < 752932)
          | none => false)]
    ∧ ((queryOfSource "due after 2024-01-05").filters.map fun f => f tb)
      = [some (tb.tasks.any fun t => match t.dueDate with
          | some s => decide (752932 < s)
          | none => false)]
    ∧ ((queryOfSource "due on 2024-01-05").filters.map fun f => f tb)
      = [some (tb.tasks.any fun t => match t.dueDate with
          | some s => s == 752932
          | none => false)] := by
  refine ⟨rfl, rfl, rfl, rfl, rfl, rfl, rfl, rfl, rfl, rfl, rfl, rfl⟩

/-- An insertion that succeeds permutes the inserted element into the list. -/
theorem jsInsertM_perm {α : Type} (cmp : α → α → Option Int) (x : α) :
    ∀ (l res : List α), jsInsertM cmp x l = some res → res.Perm (x :: l) := by
  intro l
  induction l with
  | nil =>
    intro res h
    simp [jsInsertM] at h
    subst h
    exact List.Perm.refl _
  | cons y ys ih =>
    intro res h
    unfold jsInsertM at h
    cases hc : cmp x y with
    | none => rw [hc] at h; simp at h
    | some r =>
      rw [hc] at h
      by_cases hr : r < 0
      · simp [hr] at h
        subst h
        exact List.Perm.refl _
      · simp [hr] at h
        cases hi : jsInsertM cmp x ys with
        | none => rw [hi] at h; simp at h
        | some rest =>
          rw [hi] at h
          simp at h
          subst h
          exact (List.Perm.cons y (ih rest hi)).trans (List.Perm.swap x y ys)

/-- A monadic insertion-fold that succeeds returns a permutation of the
accumulator followed by the input. -/
theorem jsSortM_foldl_perm {α : Type} (cmp : α → α → Option Int) :
    ∀ (l acc res : List α),
      l.foldlM (fun a x => jsInsertM cmp x a) acc = some res → res.Perm (acc ++ l) := by
  intro l
  induction l with
  | nil =>
    intro acc res h
    simp [List.foldlM] at h
    subst h
    simp
  | cons x xs ih =>
    intro acc res h
    rw [List.foldlM_cons] at h
    cases ha : jsInsertM cmp x acc with
    | none => rw [ha] at h; simp at h
    | some acc2 =>
      rw [ha] at h
      simp only [Option.bind_eq_bind, Option.some_bind] at h
      have h1 := ih acc2 res h
      have h2 : (acc2 ++ xs).Perm ((x :: acc) ++ xs) :=
        (jsInsertM_perm cmp x acc acc2 ha).append_right xs
      exact (h1.trans h2).trans List.perm_middle.symm

/-- C5 amended: `Sort.by` deterministically returns (and leaves in the caller's
array, which it sorted in place) a list holding exactly the input's blocks — a
permutation — whenever no comparator throws; it does not leave the caller's list in
its original order. -/
theorem sortBy_returns_permutation (sorting : List Sorting)
    (blocks result : List TaskBlock) (h : sortBy sorting blocks = some result) :
    result.Perm blocks := by
  unfold sortBy jsSortM at h
  have := jsSortM_foldl_perm
    (makeCompositeComparator
      ((sorting.map fun s =>
        if s.reverse then makeReversedComparator (comparators s.property)
        else comparators s.property)
        ++ [compareByUrgency, compareByStatus, compareByDueDate,
            compareByPriority, compareByPath]))
    blocks [] result h
  simpa using this

/-- C5 witness: the permutation theorem applied to a concrete two-block sort. -/
theorem sortBy_returns_permutation_witness :
    ([blockB, blockA] : List TaskBlock).Perm [blockA, blockB] :=
  sortBy_returns_permutation [] [blockA, blockB] [blockB, blockA] rfl

/-- With a single list-type section whose range contains the line, `getSection`
returns that section. -/
theorem getSection_single (sec : SectionCache) (n : Nat) (hty : sec.type = "list")
    (h1 : sec.position.startLine ≤ n) (h2 : n ≤ sec.position.endLine) :
    getSection n (some [sec]) = some sec := by
  unfold getSection
  simp [List.find?, hty, h1, h2]

/-- With a single non-heading section there is no preceding header. -/
theorem getPrecedingHeader_single_list (n : Nat) (sec : SectionCache)
    (fl : List String) (hty : sec.type = "list") :
    getPrecedingHeader n (some [sec]) fl = none := by
  unfold getPrecedingHeader
  simp [findPrecedingHeaderSection, hty]

/-- The scan loop over the items after the first, all inside the current section
and all parsing, produces exactly the spec-side grouping of the parsed tasks
appended to the blocks accumulated so far. -/
theorem indexLoop_tail (sec : SectionCache) (fileLines : List String) (path : String)
    (total : Nat) :
    ∀ (rest : List ListItem) (restTs : List Task) (j : Nat) (acc : List Task)
      (B : List TaskBlock),
      j + rest.length = total →
      rest ≠ [] →
      (∀ it ∈ rest, it.task.isSome = true) →
      (∀ it ∈ rest, it.position.startLine ≤ sec.position.endLine) →
      ((List.enumFrom j rest).map (fun q =>
          taskFromLine (fileLines.getD q.2.position.startLine "") path
            sec.position.startLine q.1
            (getPrecedingHeader q.2.position.startLine (some [sec]) fileLines)
            q.1 q.2.parent)
        = restTs.map some) →
      ((List.enumFrom j rest).foldl (indexFileStep (some [sec]) fileLines path (total - 1))
          { taskblocks := B, currentSection := some sec, sectionIndex := j, currentID := j,
            newTaskBlock := { tasks := acc }, first := false }).taskblocks
        = B ++ specGroupGo acc (restTs.zip (rest.map (·.parent))) := by
  intro rest
  induction rest with
  | nil =>
    intro restTs j acc B _ hne _ _ _
    exact absurd rfl hne
  | cons x rest' ih =>
    intro restTs j acc B htot hne htask hhi hparse
    have henum : List.enumFrom j (x :: rest') = (j, x) :: List.enumFrom (j + 1) rest' := rfl
    rw [henum] at hparse ⊢
    cases restTs with
    | nil => simp at hparse
    | cons t ts' =>
      rw [List.map_cons, List.map_cons] at hparse
      simp only [List.cons.injEq] at hparse
      obtain ⟨hhead, htail⟩ := hparse
      have hx := htask x (List.mem_cons_self x rest')
      have hxle := hhi x (List.mem_cons_self x rest')
      have hns : needNewSection (some sec) x.position.startLine = false := by
        simp [needNewSection, Nat.not_lt.mpr hxle]
      rw [List.foldl_cons]
      cases rest' with
      | nil =>
        -- the last item of the whole scan: the accumulated block is flushed
        have hj : j = total - 1 := by
          simp [List.length_cons] at htot
          omega
        have hlast : (j == total - 1) = true := by
          rw [hj]; simp
        have hts : ts' = [] := by
          cases ts' with
          | nil => rfl
          | cons a b => simp at htail
        subst hts
        cases hpar : (x.parent == -1) with
        | true =>
          simp only [List.foldl_nil, indexFileStep, hx, hns, Bool.false_eq_true,
            if_false, if_true, hhead, Bool.not_false, Bool.and_true, hpar, hlast,
            specGroupGo, List.zip_cons_cons, List.map_cons, List.map_nil, List.zip_nil_right]
          simp [specGroupGo]
        | false =>
          simp only [List.foldl_nil, indexFileStep, hx, hns, Bool.false_eq_true,
            if_false, if_true, hhead, Bool.not_false, Bool.and_true, hpar, hlast,
            specGroupGo, List.zip_cons_cons, List.map_cons, List.map_nil, List.zip_nil_right]
          simp [specGroupGo]
      | cons y rest'' =>
        have hlast : (j == total - 1) = false := by
          have : j ≠ total - 1 := by
            have := htot
            simp [List.length_cons] at this
            omega
          exact beq_eq_false_iff_ne.mpr this
        have htot' : (j + 1) + (y :: rest'').length = total := by
          simp [List.length_cons] at htot ⊢
          omega
        have htask' : ∀ it ∈ y :: rest'', it.task.isSome = true := fun it hm =>
          htask it (List.mem_cons_of_mem x hm)
        have hhi' : ∀ it ∈ y :: rest'', it.position.startLine ≤ sec.position.endLine :=
          fun it hm => hhi it (List.mem_cons_of_mem x hm)
        cases hpar : (x.parent == -1) with
        | true =>
          simp only [indexFileStep, hx, hns, Bool.false_eq_true, if_false, if_true,
            hhead, Bool.not_false, Bool.and_true, hpar, hlast]
          rw [ih ts' (j + 1) [t] (B ++ [({ tasks := acc } : TaskBlock)]) htot'
            (List.cons_ne_nil y rest'') htask' hhi' htail]
          simp [specGroupGo, hpar, List.zip_cons_cons, List.map_cons, List.append_assoc, List.zip]
        | false =>
          simp only [indexFileStep, hx, hns, Bool.false_eq_true, if_false, if_true,
            hhead, Bool.not_false, Bool.and_true, hpar, hlast]
          rw [ih ts' (j + 1) (acc ++ [t]) B htot'
            (List.cons_ne_nil y rest'') htask' hhi' htail]
          simp [specGroupGo, hpar, List.zip_cons_cons, List.map_cons, List.zip]

/-- C9: for a document whose checklist items all lie in one list section and all
parse into Tasks, `indexFile` replaces the document's slice of the index with
exactly the spec-side grouping of the parsed tasks: the first task opens a block, a
later top-level item (structural parent `-1`) finalizes the accumulated block and
starts a new one, an item with a structural parent joins the current block, and the
last item flushes the remaining block. -/
theorem indexFile_grouping
    (fileLines : List String) (path : String) (sec : SectionCache)
    (items : List ListItem) (ts : List Task) (blocks : List TaskBlock)
    (hsec : sec.type = "list")
    (hne : items ≠ [])
    (htask : ∀ it ∈ items, it.task.isSome = true)
    (hlo : ∀ it ∈ items, sec.position.startLine ≤ it.position.startLine)
    (hhi : ∀ it ∈ items, it.position.startLine ≤ sec.position.endLine)
    (hparse : items.enum.map (fun q =>
        taskFromLine (fileLines.getD q.2.position.startLine "") path
          sec.position.startLine q.1
          (getPrecedingHeader q.2.position.startLine (some [sec]) fileLines)
          q.1 q.2.parent) = ts.map some) :
    indexFile (some { listItems := some items, sections := some [sec] }) fileLines path blocks
      = removeBlocksOfPath path blocks ++ specGroup (ts.zip (items.map (·.parent))) := by
  cases items with
  | nil => exact absurd rfl hne
  | cons x rest =>
    have hx := htask x (List.mem_cons_self x rest)
    have hsec0 : getSection x.position.startLine (some [sec]) = some sec :=
      getSection_single sec _ hsec (hlo x (List.mem_cons_self x rest))
        (hhi x (List.mem_cons_self x rest))
    have henum : List.enum (x :: rest) = (0, x) :: List.enumFrom 1 rest := rfl
    rw [henum] at hparse
    cases ts with
    | nil => simp at hparse
    | cons t ts' =>
      rw [List.map_cons, List.map_cons] at hparse
      simp only [List.cons.injEq] at hparse
      obtain ⟨hhead, htail⟩ := hparse
      unfold indexFile
      simp only [Option.getD_some]
      rw [henum, List.foldl_cons]
      cases rest with
      | nil =>
        have hts : ts' = [] := by
          cases ts' with
          | nil => rfl
          | cons a b => simp at htail
        subst hts
        simp only [List.getD_eq_getElem?_getD] at hhead
        simp [indexFileStep, hx, needNewSection, hsec0, hhead,
          specGroup, specGroupGo, List.zip]
      | cons y rest' =>
        have H := indexLoop_tail sec fileLines path ((x :: y :: rest').length)
          (y :: rest') ts' 1 [t] (removeBlocksOfPath path blocks)
          (by simp [List.length_cons]; omega)
          (List.cons_ne_nil y rest')
          (fun it hm => htask it (List.mem_cons_of_mem x hm))
          (fun it hm => hhi it (List.mem_cons_of_mem x hm))
          htail
        simp only [List.length_cons, Nat.add_sub_cancel] at H
        have hz : ((0 : Nat) == rest'.length + 1) = false := rfl
        simp only [indexFileStep, hx, needNewSection, hsec0, hhead,
          List.length_cons, Nat.add_sub_cancel, if_true, Bool.not_true,
          Bool.and_false, Bool.false_eq_true, if_false, List.nil_append,
          hz, Nat.zero_add]
        rw [H]
        simp [specGroup, specGroupGo, List.zip, List.map_cons]

/-- C9 witness: the grouping theorem applied to the two spec scenarios — two
top-level items give two TaskBlocks of one Task each, and a parent followed by an
indented child gives one TaskBlock of two Tasks with `child.parent` pointing at the
parent's structural index 0. -/
theorem indexFile_grouping_witness :
    indexFile (some fcAB) linesAB "f.md" [] = [{ tasks := [taskA] }, { tasks := [taskB] }]
    ∧ indexFile (some fcPC) linesPC "f.md" [] = [{ tasks := [parentTask, childTask] }] := by
  constructor
  · exact (indexFile_grouping linesAB "f.md"
      { type := "list", position := { startLine := 0, endLine := 1 } }
      itemsAB [taskA, taskB] [] rfl (by decide) (by decide) (by decide) (by decide)
      (by decide)).trans (by decide)
  · exact (indexFile_grouping linesPC "f.md"
      { type := "list", position := { startLine := 0, endLine := 1 } }
      itemsPC [parentTask, childTask] [] rfl (by decide) (by decide) (by decide)
      (by decide) (by decide)).trans (by decide)

end ObsidianTasks
